import Mathlib

/-!
Shallow embedding of the onecontext Python client library
(modules `onecontext/utils.py`, `onecontext/context.py`, `onecontext/client.py`)
and proofs about its metadata validation, upload pipeline and transport layer.

Python dicts are modelled as ordered association lists (insertion order is
observable in Python), JSON values as an inductive tree, machine integers as
`Nat`/`Int`, and fallible code as `Except`.
-/

namespace OneContext

/-- A JSON-like value, as produced by parsing a JSON body or as stored in a
Python metadata dict.  Python dicts are ordered association lists. -/
inductive JVal where
  | null : JVal
  | bool : Bool → JVal
  | num : Int → JVal
  | str : String → JVal
  | arr : List JVal → JVal
  | obj : List (String × JVal) → JVal

/-- Python truthiness (`bool(v)`) of a JSON value. -/
def jvalTruthy : JVal → Bool
  | .null => false
  | .bool b => b
  | .num n => n != 0
  | .str s => s != ""
  | .arr l => !l.isEmpty
  | .obj l => !l.isEmpty

/-- Python `dict.__setitem__` on an ordered association list: an existing key
keeps its position and gets the new value; a fresh key is appended. -/
def pyDictInsert (l : List (String × JVal)) (k : String) (v : JVal) :
    List (String × JVal) :=
  if l.any (fun p => p.1 == k) then
    l.map (fun p => if p.1 == k then (k, v) else p)
  else
    l ++ [(k, v)]

/-- Python `dict(items)`: build a dict from a list of pairs by repeated
insertion (first occurrence keeps the position, last occurrence the value). -/
def pyDictOfList (items : List (String × JVal)) : List (String × JVal) :=
  items.foldl (fun acc p => pyDictInsert acc p.1 p.2) []

/-- Python `dict.get(k, default)` on an ordered association list. -/
def dict_get (rj : List (String × JVal)) (k : String) (dflt : JVal) : JVal :=
  match rj.find? (fun e => e.1 == k) with
  | some e => e.2
  | none => dflt

/-! ## `context.py`: metadata validation -/

/-- Python `char in key` (substring test for a single character): the
character occurs among the characters of the string. -/
def containsChar (k : String) (c : Char) : Bool :=
  k.data.contains c

/-- `bad_chars` of `check_keys` (context.py line 87). -/
def badChars : List Char := ['.', '-', '\\']

/-- `any(char in key for char in bad_chars)` (context.py line 89). -/
def keyHasBadChar (k : String) : Bool :=
  badChars.any (fun c => containsChar k c)

/-- `check_keys` (context.py lines 86-92): walks the dict; raises on a key
containing `.`, `-` or `\`; recurses into a value only when it is a dict. -/
def check_keys : List (String × JVal) → Except String Unit
  | [] => .ok ()
  | (k, v) :: rest =>
    if keyHasBadChar k then
      .error ("Key " ++ k ++ " contains invalid character(s)")
    else
      match v with
      | .obj kvs =>
        match check_keys kvs with
        | .error e => .error e
        | .ok _ => check_keys rest
      | _ => check_keys rest

/-- `new_key = f"{parent_key}{sep}{k}" if parent_key else k`
(context.py line 78): the empty parent key is falsy in Python. -/
def newKey (sep parent k : String) : String :=
  if parent ≠ "" then parent ++ sep ++ k else k

/-- The loop body of `flatten_dict` (context.py lines 76-82), producing the
`items` list: a dict value is recursively flattened (through the inner
`dict(items)` of the recursive `flatten_dict` call, then `.items()`), any
other value is appended as a leaf. -/
def flattenItems (sep : String) : List (String × JVal) → String → List (String × JVal)
  | [], _ => []
  | (k, v) :: rest, parent =>
    (match v with
     | .obj kvs => pyDictOfList (flattenItems sep kvs (newKey sep parent k))
     | _ => [(newKey sep parent k, v)]) ++ flattenItems sep rest parent

/-- `flatten_dict` (context.py lines 75-83): collect the items, then return
`dict(items)`. -/
def flatten_dict (d : List (String × JVal)) (parent sep : String) :
    List (String × JVal) :=
  pyDictOfList (flattenItems sep d parent)

/-- `parse_metadata` (context.py lines 95-107).  The `json.dumps` check
always succeeds on a `JVal` (every `JVal` is a JSON tree), so only
`check_keys` and the optional flattening remain. -/
def parse_metadata (metadata : List (String × JVal)) (flatten : Bool) :
    Except String (List (String × JVal)) :=
  match check_keys metadata with
  | .error e => .error e
  | .ok _ => if flatten then .ok (flatten_dict metadata "" "_") else .ok metadata

/-! ## `utils.py`: `batch_by_size` -/

/-- Cumulative serialized size of a batch, where `size item` models
`len(json.dumps(item).encode("utf-8"))` (utils.py line 9). -/
def sumSize {α : Type} (size : α → Nat) (l : List α) : Nat :=
  (l.map size).sum

/-- The loop of `batch_by_size` (utils.py lines 7-17), with the running
`batch` and `cum_size` state made explicit.  When adding the next item would
exceed the limit and the current batch is non-empty, the batch is emitted and
a fresh batch is started; the item is then always appended. -/
def batch_by_size_go {α : Type} (size : α → Nat) (size_limit : Nat) :
    List α → List α → Nat → List (List α)
  | [], batch, _ => if batch.isEmpty then [] else [batch]
  | item :: rest, batch, cum =>
    if cum + size item > size_limit ∧ ¬ batch.isEmpty then
      batch :: batch_by_size_go size size_limit rest [item] (size item)
    else
      batch_by_size_go size size_limit rest (batch ++ [item]) (cum + size item)

/-- `batch_by_size` (utils.py lines 5-17): `size_limit = max_size_mb << 20`;
the generator is collected into a list of batches. -/
def batch_by_size {α : Type} (size : α → Nat) (items : List α)
    (max_size_mb : Nat) : List (List α) :=
  batch_by_size_go size (max_size_mb <<< 20) items [] 0

/-! ## `context.py`: file-path validation and the upload pipeline -/

/-- `SUPPORTED_FILE_TYPES` (context.py lines 24-48), duplicates included. -/
def SUPPORTED_FILE_TYPES : List String :=
  [".pdf", ".docx", ".doc", ".docx", ".epub", ".odt", ".pdf", ".ppt",
   ".pptx", ".png", ".jpg", ".jpeg", ".tiff", ".bmp", ".heic", ".eml",
   ".html", ".md", ".msg", ".rst", ".rtf", ".txt", ".xml"]

/-- `MAX_UPLOAD` (context.py line 51). -/
def MAX_UPLOAD : Nat := 15000

/-- Split a character list on a separator character (like `str.split`):
always returns at least one (possibly empty) segment. -/
def splitOnChar (c : Char) : List Char → List (List Char)
  | [] => [[]]
  | x :: xs =>
    if x = c then [] :: splitOnChar c xs
    else
      match splitOnChar c xs with
      | [] => [[x]]
      | s :: rest => (x :: s) :: rest

/-- The final path component, as in `pathlib.PurePath.name`. -/
def pathName (p : String) : List Char :=
  ((splitOnChar '/' p.data).getLast?).getD p.data

/-- `pathlib.PurePath.suffix`: `name[i:]` where `i = name.rfind(".")`,
returned only when `0 < i < len(name) - 1`.  Splitting the name on `.`:
the text after the last dot is the last segment; the index condition fails
exactly when the name has no dot (a single segment), ends with a dot (empty
last segment), or has its only dot at position 0 (exactly two segments, the
first empty). -/
def pathSuffix (p : String) : String :=
  let name := pathName p
  let parts := splitOnChar '.' name
  match parts with
  | [] => ""
  | [_] => ""
  | _ =>
    let last := (parts.getLast?).getD []
    if last.isEmpty then ""
    else if parts.length = 2 ∧ parts.head? = some [] then ""
    else String.mk ('.' :: last)

/-- A local file as the pipeline sees it: its path string and whether
`Path(file_path).exists()` is true (the file-system state). -/
structure FsFile where
  path : String
  onDisk : Bool
  deriving DecidableEq, Repr

/-- `is_supported_file` (context.py lines 60-61). -/
def is_supported_file (p : String) : Bool :=
  SUPPORTED_FILE_TYPES.contains (pathSuffix p)

/-- The distinct validation failures `upload_files` can raise before any
network call; each constructor corresponds to one `raise ValueError` site. -/
inductive UploadError where
  | tooMany
  | fileNotFound (path : String)
  | unsupported (path : String)
  | countMismatch
  | metadataError (msg : String)
  deriving DecidableEq, Repr

/-- `parse_file_path` (context.py lines 64-72): the path must exist on disk
and its suffix must be in the supported list. -/
def parse_file_path (f : FsFile) : Except UploadError FsFile :=
  if ¬ f.onDisk then .error (.fileNotFound f.path)
  else if ¬ is_supported_file f.path then .error (.unsupported f.path)
  else .ok f

/-- The list comprehension `[parse_file_path(path) for path in file_paths]`
(context.py line 300): stops at the first failing path. -/
def parse_file_paths : List FsFile → Except UploadError (List FsFile)
  | [] => .ok []
  | f :: rest =>
    match parse_file_path f with
    | .error e => .error e
    | .ok f2 =>
      match parse_file_paths rest with
      | .error e => .error e
      | .ok rest2 => .ok (f2 :: rest2)

/-- `[parse_metadata(m, flatten_metadata) for m in metadata]`
(context.py line 308). -/
def parse_metadata_list (flatten : Bool) :
    List (List (String × JVal)) → Except UploadError (List (List (String × JVal)))
  | [] => .ok []
  | m :: rest =>
    match parse_metadata m flatten with
    | .error e => .error (.metadataError e)
    | .ok m2 =>
      match parse_metadata_list flatten rest with
      | .error e => .error e
      | .ok rest2 => .ok (m2 :: rest2)

/-- The synchronous validation prefix of `upload_files` (context.py lines
297-308), everything executed before the first network call
(`_get_upload_params`, line 312).  `metadata = none` models the Python
default `None`; Python tests `if metadata and ...` / `if not metadata`, so
`none` and the empty list take the same branches.  An `.ok` result carries
the parsed file list and per-file metadata that the network phase would
consume; an `.error` result means `upload_files` raises before any network
call. -/
def upload_files_validate (file_paths : List FsFile)
    (metadata : Option (List (List (String × JVal)))) (flatten_metadata : Bool) :
    Except UploadError (List FsFile × List (List (String × JVal))) :=
  if file_paths.length > MAX_UPLOAD then .error .tooMany
  else
    match parse_file_paths file_paths with
    | .error e => .error e
    | .ok fps =>
      let mdList := metadata.getD []
      if ¬ mdList.isEmpty ∧ mdList.length ≠ file_paths.length then
        .error .countMismatch
      else
        let md := if mdList.isEmpty then List.replicate fps.length [] else mdList
        match parse_metadata_list flatten_metadata md with
        | .error e => .error e
        | .ok md2 => .ok (fps, md2)

/-! ## `context.py`: content-type guessing (`guess_mime_type`) -/

/-- `mimetypes.guess_type`, modelled from the stdlib documentation: returns
the pair `(type, encoding)`; the type is looked up from the file suffix in a
types table and is `None` for an unknown suffix.  The encoding component is
not relevant here and is modelled as `none`. -/
def guess_type (types_map : List (String × String)) (path : String) :
    Option String × Option String :=
  ((types_map.find? (fun e => e.1 == pathSuffix path)).map (fun e => e.2), none)

/-- Python truthiness of the tuple returned by `mimetypes.guess_type`: a
2-tuple is non-empty, hence always truthy, whatever its components. -/
def tupleTruthy (_t : Option String × Option String) : Bool :=
  true

/-- `guess_mime_type` (context.py lines 54-57):
`mime_type = _mime_type[0] if _mime_type else "application/octet-stream"`,
where `_mime_type` is the tuple returned by `mimetypes.guess_type`. -/
def guess_mime_type (types_map : List (String × String)) (path : String) :
    Option String :=
  let mt := guess_type types_map path
  if tupleTruthy mt then mt.1 else some "application/octet-stream"

/-- A small concrete slice of the stdlib `mimetypes` table. -/
def sample_types_map : List (String × String) :=
  [(".txt", "text/plain"), (".pdf", "application/pdf"), (".html", "text/html")]

/-! ## `context.py`: per-file transfer with retry (`_upload_file`) -/

/-- `status_forcelist=[502, 503, 504]` (context.py line 240). -/
def status_forcelist : List Nat := [502, 503, 504]

/-- The urllib3 `Retry(total=3, status_forcelist=[502, 503, 504])` adapter
mounted by `_upload_file`, modelled from the urllib3 documentation: given the
statuses the server would answer on successive attempts, the adapter delivers
the first status outside the forcelist; a forcelist status consumes a retry;
when the retry budget is exhausted (or no answer remains) the adapter raises
instead of delivering a response (`none`). -/
def retryPut : Nat → List Nat → Option Nat
  | _, [] => none
  | 0, s :: _ => if s ∈ status_forcelist then none else some s
  | fuel + 1, s :: rest =>
    if s ∈ status_forcelist then retryPut fuel rest else some s

/-- Number of HTTP attempts the adapter makes on the given answer sequence. -/
def retryAttempts : Nat → List Nat → Nat
  | _, [] => 0
  | 0, _ :: _ => 1
  | fuel + 1, s :: rest =>
    if s ∈ status_forcelist then 1 + retryAttempts fuel rest else 1

/-- Outcome of one file transfer. -/
inductive UploadOutcome where
  | ok
  | failNamed (file : String)
  | retriesExhausted
  deriving DecidableEq, Repr

/-- `_upload_file` (context.py lines 236-245): put through the retry adapter;
if the delivered terminal status is not exactly 200, raise a `ValueError`
naming the file; if retries are exhausted the adapter itself raises. -/
def upload_file (file : String) (responses : List Nat) : UploadOutcome :=
  match retryPut 3 responses with
  | none => .retriesExhausted
  | some s => if s ≠ 200 then .failNamed file else .ok

/-! ## `client.py`: transport error handling (`ApiClient._handle_response`) -/

/-- Result of `ApiClient._handle_response`. -/
inductive HandleResult where
  | body (rj : List (String × JVal))
  | apiError (status : Nat) (detail : JVal)
  | httpError (status : Nat)

/-- `ApiClient._handle_response` (client.py lines 93-106).  `body = none`
models a response whose body is not parseable JSON (`response.json()`
raising `ValueError`), in which case `response_json = {}`.  `response.ok`
is `status_code < 400`; `response.raise_for_status()` raises a generic
HTTP error carrying the status.  On a non-ok status the code reads
`response_json.get("detail", [])` and raises `ApiError` with the status code
and that message only when it is truthy. -/
def handle_response (status : Nat) (body : Option (List (String × JVal))) :
    HandleResult :=
  let response_json := body.getD []
  if status < 400 then .body response_json
  else
    let error_msg := dict_get response_json "detail" (JVal.arr [])
    if jvalTruthy error_msg then .apiError status error_msg
    else .httpError status

/-! ## `context.py`: `search` argument validation -/

/-- The request body `search` would post to `context/search`
(context.py lines 564-576). -/
structure SearchRequest where
  query : String
  semanticWeight : Rat
  fullTextWeight : Rat
  rrfK : Int
  topK : Int
  includeEmbedding : Bool
  contextName : String
  metadataFilters : Option JVal

/-- `true` exactly on `Except.error`. -/
def isError {ε α : Type} : Except ε α → Bool
  | .error _ => true
  | .ok _ => false

/-- `Context.search` (context.py lines 503-578): the four validations in
source order (`not query`; `not (0 <= semantic_weight <= 1)`;
`not (0 <= full_text_weight <= 1)`; both weights zero), then the request
body is built and posted.  An `.ok` result is the request that is sent; an
`.error` result means `search` raises and no request is sent. -/
def search (contextName query : String) (top_k : Int)
    (semantic_weight full_text_weight : Rat) (rrf_k : Int)
    (include_embedding : Bool) (metadata_filters : Option JVal) :
    Except String SearchRequest :=
  if query = "" then .error "The query string must not be empty."
  else if ¬ (0 ≤ semantic_weight ∧ semantic_weight ≤ 1) then
    .error "semantic_weight must be between 0 and 1."
  else if ¬ (0 ≤ full_text_weight ∧ full_text_weight ≤ 1) then
    .error "full_text_weight must be between 0 and 1."
  else if semantic_weight = 0 ∧ full_text_weight = 0 then
    .error "Both semantic_weight and full_text_weight cannot be zero."
  else
    .ok { query := query, semanticWeight := semantic_weight,
          fullTextWeight := full_text_weight, rrfK := rrf_k, topK := top_k,
          includeEmbedding := include_embedding, contextName := contextName,
          metadataFilters := metadata_filters }

/-! ## Spec-side characterizations used by the theorems -/

/-- The leaf key/value pairs of a metadata dict, each with its full key path
(in-order traversal; a non-dict value is a leaf). -/
def leafPairsObj : List (String × JVal) → List (List String × JVal)
  | [] => []
  | (k, v) :: rest =>
    (match v with
     | .obj kvs => (leafPairsObj kvs).map (fun p => (k :: p.1, p.2))
     | _ => [([k], v)]) ++ leafPairsObj rest

/-- Folding `new_key` over a key path, starting from a parent key. -/
def joinFrom (sep parent : String) (path : List String) : String :=
  path.foldl (newKey sep) parent

/-- The fully flattened leaf list of a metadata dict: every leaf pair with
its joined key, in traversal order, with no dict-collision dropping. -/
def rawFlatten (sep parent : String) (d : List (String × JVal)) :
    List (String × JVal) :=
  (leafPairsObj d).map (fun p => (joinFrom sep parent p.1, p.2))

/-- A key containing one of `bad_chars` occurs somewhere in the dict, at any
depth of dict-within-dict nesting: exactly the keys reachable by a walk that
descends into dict values only.  Values that are not dicts — lists included —
are not searched, whatever they contain. -/
def hasBadKeyDict : List (String × JVal) → Bool
  | [] => false
  | (k, v) :: rest =>
    keyHasBadChar k ||
    (match v with
     | .obj kvs => hasBadKeyDict kvs
     | _ => false) ||
    hasBadKeyDict rest

/-! # Theorems -/

/-! ## C1: `batch_by_size` ordering and size bound -/

lemma batch_by_size_go_flatten {α : Type} (size : α → Nat) (L : Nat) :
    ∀ (items batch : List α) (cum : Nat),
      (batch_by_size_go size L items batch cum).flatten = batch ++ items := by
  intro items
  induction items with
  | nil =>
    intro batch cum
    simp only [batch_by_size_go]
    split
    · simp_all [List.isEmpty_iff]
    · simp
  | cons item rest ih =>
    intro batch cum
    simp only [batch_by_size_go]
    split
    · simp [ih]
    · simp [ih]

lemma batch_by_size_go_bound {α : Type} (size : α → Nat) (L : Nat) :
    ∀ (items batch : List α) (cum : Nat),
      cum = sumSize size batch →
      (2 ≤ batch.length → cum ≤ L) →
      ∀ b ∈ batch_by_size_go size L items batch cum,
        2 ≤ b.length → sumSize size b ≤ L := by
  intro items
  induction items with
  | nil =>
    intro batch cum hcum hbound b hb hlen
    simp only [batch_by_size_go] at hb
    split at hb
    · simp at hb
    · rw [List.mem_singleton] at hb
      subst hb
      exact hcum ▸ hbound hlen
  | cons item rest ih =>
    intro batch cum hcum hbound b hb hlen
    simp only [batch_by_size_go] at hb
    split at hb
    case isTrue h =>
      rcases List.mem_cons.mp hb with rfl | hb2
      · exact hcum ▸ hbound hlen
      · refine ih [item] (size item) ?_ ?_ b hb2 hlen
        · simp [sumSize]
        · intro h2
          simp at h2
    case isFalse h =>
      refine ih (batch ++ [item]) (cum + size item) ?_ ?_ b hb hlen
      · simp [sumSize, hcum]
      · intro h2
        rcases not_and_or.mp h with h3 | h3
        · omega
        · have hbe : batch = [] := by
            simpa [List.isEmpty_iff] using not_not.mp h3
          subst hbe
          simp at h2

/-- C1 (amended): the batches produced by `batch_by_size` preserve the
original relative order of items within and across batches and their
concatenation equals the input list; every batch containing at least two
items has cumulative serialized size at most the cap.  (A single item whose
own serialized size already exceeds the cap is still placed in a batch — a
singleton one — whose size exceeds the cap, so the unrestricted bound of the
original claim fails; see the counterexample.) -/
theorem batch_by_size_order_and_cap {α : Type} (size : α → Nat)
    (items : List α) (max_size_mb : Nat) :
    (batch_by_size size items max_size_mb).flatten = items ∧
    ∀ b ∈ batch_by_size size items max_size_mb,
      2 ≤ b.length → sumSize size b ≤ max_size_mb <<< 20 := by
  constructor
  · simpa using batch_by_size_go_flatten size (max_size_mb <<< 20) items [] 0
  · intro b hb hlen
    refine batch_by_size_go_bound size (max_size_mb <<< 20) items [] 0 ?_ ?_ b hb hlen
    · simp [sumSize]
    · intro h2
      simp at h2

theorem batch_by_size_order_and_cap_witness :
    sumSize (fun n : Nat => n) [1, 2] ≤ 1 <<< 20 :=
  (batch_by_size_order_and_cap (fun n : Nat => n) [1, 2] 1).2 [1, 2]
    (by decide) (by decide)

/-- C1 counterexample: with a 1 MB cap, a single item of serialized size
2000000 bytes is placed in a batch whose cumulative size 2000000 exceeds the
cap `1 <<< 20 = 1048576`, refuting "no batch's cumulative JSON-serialized
size exceeds the cap" as stated. -/
theorem batch_by_size_cap_exceeded_cex :
    batch_by_size (fun n : Nat => n) [2000000] 1 = [[2000000]] ∧
    1 <<< 20 < sumSize (fun n : Nat => n) [2000000] := by
  exact ⟨rfl, by decide⟩

/-! ## C5: `flatten_dict` loses no leaf pairs when flattened keys collide
nowhere -/

lemma pyDictInsert_fresh (acc : List (String × JVal)) (k : String) (v : JVal)
    (h : ∀ p ∈ acc, p.1 ≠ k) : pyDictInsert acc k v = acc ++ [(k, v)] := by
  have hfalse : ¬ ((acc.any fun p => p.1 == k) = true) := by
    simp only [List.any_eq_true, beq_iff_eq, not_exists, not_and]
    exact fun p hp => h p hp
  simp [pyDictInsert, hfalse]

lemma pyDictOfList_fold_nodup :
    ∀ (l acc : List (String × JVal)),
      (((acc ++ l).map Prod.fst)).Nodup →
      l.foldl (fun acc p => pyDictInsert acc p.1 p.2) acc = acc ++ l := by
  intro l
  induction l with
  | nil => intro acc _; simp
  | cons p rest ih =>
    intro acc h
    obtain ⟨k, v⟩ := p
    have hk : ∀ q ∈ acc, q.1 ≠ k := by
      rw [List.map_append, List.nodup_append] at h
      obtain ⟨-, -, hdisj⟩ := h
      intro q hq hqk
      exact hdisj (List.mem_map_of_mem Prod.fst hq)
        (by simp [hqk])
    have happ : acc ++ (k, v) :: rest = (acc ++ [(k, v)]) ++ rest := by
      simp
    simp only [List.foldl_cons]
    rw [pyDictInsert_fresh acc k v hk]
    rw [happ] at h
    rw [ih (acc ++ [(k, v)]) h, happ]

lemma pyDictOfList_nodup (l : List (String × JVal))
    (h : (l.map Prod.fst).Nodup) : pyDictOfList l = l := by
  simpa [pyDictOfList] using pyDictOfList_fold_nodup l [] (by simpa using h)

lemma rawFlatten_nil (sep parent : String) : rawFlatten sep parent [] = [] := by
  simp [rawFlatten, leafPairsObj]

lemma rawFlatten_cons_obj (sep parent k : String)
    (kvs rest : List (String × JVal)) :
    rawFlatten sep parent ((k, JVal.obj kvs) :: rest) =
      rawFlatten sep (newKey sep parent k) kvs ++ rawFlatten sep parent rest := by
  simp only [rawFlatten, leafPairsObj, List.map_append, List.map_map]
  rfl

lemma rawFlatten_cons_leaf (sep parent k : String) (v : JVal)
    (rest : List (String × JVal)) (hv : ∀ kvs, v ≠ JVal.obj kvs) :
    rawFlatten sep parent ((k, v) :: rest) =
      (newKey sep parent k, v) :: rawFlatten sep parent rest := by
  cases v with
  | obj kvs => exact absurd rfl (hv kvs)
  | null => simp [rawFlatten, leafPairsObj, joinFrom]
  | bool b => simp [rawFlatten, leafPairsObj, joinFrom]
  | num n => simp [rawFlatten, leafPairsObj, joinFrom]
  | str s => simp [rawFlatten, leafPairsObj, joinFrom]
  | arr xs => simp [rawFlatten, leafPairsObj, joinFrom]

lemma flattenItems_cons_leaf (sep parent k : String) (v : JVal)
    (rest : List (String × JVal)) (hv : ∀ kvs, v ≠ JVal.obj kvs) :
    flattenItems sep ((k, v) :: rest) parent =
      (newKey sep parent k, v) :: flattenItems sep rest parent := by
  cases v with
  | obj kvs => exact absurd rfl (hv kvs)
  | null => simp [flattenItems]
  | bool b => simp [flattenItems]
  | num n => simp [flattenItems]
  | str s => simp [flattenItems]
  | arr xs => simp [flattenItems]

theorem flattenItems_eq_raw (sep : String) :
    ∀ (d : List (String × JVal)) (parent : String),
      ((rawFlatten sep parent d).map Prod.fst).Nodup →
      flattenItems sep d parent = rawFlatten sep parent d
  | [], parent, _ => by simp [flattenItems, rawFlatten_nil]
  | (k, JVal.obj kvs) :: rest, parent, h => by
    rw [rawFlatten_cons_obj] at h
    rw [List.map_append, List.nodup_append] at h
    obtain ⟨hsub, hrest, -⟩ := h
    have ih1 := flattenItems_eq_raw sep kvs (newKey sep parent k) hsub
    have ih2 := flattenItems_eq_raw sep rest parent hrest
    simp only [flattenItems]
    rw [ih1, ih2, pyDictOfList_nodup _ hsub, rawFlatten_cons_obj]
  | (k, JVal.null) :: rest, parent, h => by
    rw [rawFlatten_cons_leaf sep parent k _ rest (fun _ => by simp)] at h ⊢
    rw [flattenItems_cons_leaf sep parent k _ rest (fun _ => by simp)]
    rw [List.map_cons, List.nodup_cons] at h
    rw [flattenItems_eq_raw sep rest parent h.2]
  | (k, JVal.bool b) :: rest, parent, h => by
    rw [rawFlatten_cons_leaf sep parent k _ rest (fun _ => by simp)] at h ⊢
    rw [flattenItems_cons_leaf sep parent k _ rest (fun _ => by simp)]
    rw [List.map_cons, List.nodup_cons] at h
    rw [flattenItems_eq_raw sep rest parent h.2]
  | (k, JVal.num n) :: rest, parent, h => by
    rw [rawFlatten_cons_leaf sep parent k _ rest (fun _ => by simp)] at h ⊢
    rw [flattenItems_cons_leaf sep parent k _ rest (fun _ => by simp)]
    rw [List.map_cons, List.nodup_cons] at h
    rw [flattenItems_eq_raw sep rest parent h.2]
  | (k, JVal.str s) :: rest, parent, h => by
    rw [rawFlatten_cons_leaf sep parent k _ rest (fun _ => by simp)] at h ⊢
    rw [flattenItems_cons_leaf sep parent k _ rest (fun _ => by simp)]
    rw [List.map_cons, List.nodup_cons] at h
    rw [flattenItems_eq_raw sep rest parent h.2]
  | (k, JVal.arr xs) :: rest, parent, h => by
    rw [rawFlatten_cons_leaf sep parent k _ rest (fun _ => by simp)] at h ⊢
    rw [flattenItems_cons_leaf sep parent k _ rest (fun _ => by simp)]
    rw [List.map_cons, List.nodup_cons] at h
    rw [flattenItems_eq_raw sep rest parent h.2]

/-- C5 (amended): when the flattened keys of the metadata dict are pairwise
distinct, `flatten_dict` is exactly the in-order list of all leaf key/value
pairs with their joined keys: it is pure, order-preserving, and loses no
leaf pair.  (When two flattened keys collide, the earlier leaf value is
overwritten and its pair is lost; see the counterexample.) -/
theorem flatten_dict_no_collision_eq (d : List (String × JVal))
    (h : ((rawFlatten "_" "" d).map Prod.fst).Nodup) :
    flatten_dict d "" "_" = rawFlatten "_" "" d := by
  rw [flatten_dict, flattenItems_eq_raw "_" d "" h, pyDictOfList_nodup _ h]

theorem flatten_dict_no_collision_eq_witness :
    flatten_dict [("a", JVal.obj [("b", JVal.num 1)]), ("c", JVal.num 2)] "" "_"
      = rawFlatten "_" "" [("a", JVal.obj [("b", JVal.num 1)]), ("c", JVal.num 2)] :=
  flatten_dict_no_collision_eq
    [("a", JVal.obj [("b", JVal.num 1)]), ("c", JVal.num 2)]
    (by simp [rawFlatten, leafPairsObj, joinFrom, newKey])

/-- C5 counterexample: in `{"a": {"b": 1}, "a_b": 2}` both leaves flatten to
the key `"a_b"`; the leaf pair `("a"."b", 1)` of the input does not appear
in the flattened output (the later pair overwrote it), refuting "never loses
key/value pairs" as stated. -/
theorem flatten_dict_collision_cex :
    (["a", "b"], JVal.num 1) ∈
        leafPairsObj [("a", JVal.obj [("b", JVal.num 1)]), ("a_b", JVal.num 2)] ∧
    joinFrom "_" "" ["a", "b"] = "a_b" ∧
    flatten_dict [("a", JVal.obj [("b", JVal.num 1)]), ("a_b", JVal.num 2)] "" "_"
      = [("a_b", JVal.num 2)] ∧
    ("a_b", JVal.num 1) ∉
      flatten_dict [("a", JVal.obj [("b", JVal.num 1)]), ("a_b", JVal.num 2)] "" "_" := by
  have hval : flatten_dict [("a", JVal.obj [("b", JVal.num 1)]), ("a_b", JVal.num 2)] "" "_"
      = [("a_b", JVal.num 2)] := by
    simp [flatten_dict, flattenItems, newKey, pyDictOfList, pyDictInsert]
  refine ⟨?_, by decide, hval, ?_⟩
  · simp [leafPairsObj]
  · rw [hval]
    simp

/-! ## Helper lemmas about the `upload_files` validation prefix -/

lemma parse_metadata_nil (flat : Bool) : parse_metadata [] flat = .ok [] := by
  have hck0 : check_keys [] = .ok () := by simp [check_keys]
  have hfl : flatten_dict [] "" "_" = [] := by
    simp [flatten_dict, flattenItems, pyDictOfList]
  rw [parse_metadata, hck0]
  cases flat <;> simp [hfl]

lemma parse_metadata_list_singleton (flat : Bool) (m m2 : List (String × JVal))
    (h : parse_metadata m flat = .ok m2) :
    parse_metadata_list flat [m] = .ok [m2] := by
  simp only [parse_metadata_list, h]

lemma parse_metadata_list_replicate (flat : Bool) (n : Nat) :
    parse_metadata_list flat (List.replicate n []) = .ok (List.replicate n []) := by
  induction n with
  | zero => rfl
  | succ m ih =>
    rw [List.replicate_succ]
    simp only [parse_metadata_list, parse_metadata_nil, ih]

lemma upload_files_validate_eq_ok (F : List FsFile)
    (M M2 : List (List (String × JVal))) (flat : Bool)
    (hmax : ¬ F.length > MAX_UPLOAD)
    (hfp : parse_file_paths F = .ok F)
    (hM : M ≠ [])
    (hlen : M.length = F.length)
    (hpm : parse_metadata_list flat M = .ok M2) :
    upload_files_validate F (some M) flat = .ok (F, M2) := by
  rw [upload_files_validate, if_neg hmax, hfp]
  have hMe : M.isEmpty = false := by
    cases M with
    | nil => exact absurd rfl hM
    | cons a as => rfl
  simp only [Option.getD_some]
  rw [if_neg (by simp [hMe, hlen])]
  simp only [hMe, Bool.false_eq_true, if_false, hpm]

lemma upload_files_validate_mismatch (F : List FsFile)
    (M : List (List (String × JVal))) (flat : Bool)
    (hmax : ¬ F.length > MAX_UPLOAD)
    (hfp : parse_file_paths F = .ok F)
    (hM : M ≠ [])
    (hlen : M.length ≠ F.length) :
    upload_files_validate F (some M) flat = .error .countMismatch := by
  rw [upload_files_validate, if_neg hmax, hfp]
  simp only [Option.getD_some]
  rw [if_pos ⟨by simp [List.isEmpty_iff, hM], hlen⟩]

lemma upload_files_validate_no_metadata (F : List FsFile)
    (metadata : Option (List (List (String × JVal)))) (flat : Bool)
    (hmax : ¬ F.length > MAX_UPLOAD)
    (hfp : parse_file_paths F = .ok F)
    (hmd : metadata = none ∨ metadata = some []) :
    upload_files_validate F metadata flat
      = .ok (F, List.replicate F.length []) := by
  rw [upload_files_validate, if_neg hmax, hfp]
  have hget : metadata.getD [] = [] := by
    rcases hmd with rfl | rfl <;> rfl
  simp only [hget]
  rw [if_neg (by simp)]
  simp only [List.isEmpty_nil, if_true, parse_metadata_list_replicate]

/-! ## C7: `check_keys` recurses through dict values only -/

lemma check_keys_isError_eq : ∀ (d : List (String × JVal)),
    isError (check_keys d) = hasBadKeyDict d
  | [] => by simp [check_keys, hasBadKeyDict, isError]
  | (k, v) :: rest => by
    by_cases hk : keyHasBadChar k = true
    · cases v <;> simp [check_keys, hasBadKeyDict, hk, isError]
    · have hk' : keyHasBadChar k = false := by simpa using hk
      cases v with
      | obj kvs =>
        have ih1 := check_keys_isError_eq kvs
        have ih2 := check_keys_isError_eq rest
        cases hck : check_keys kvs with
        | error e =>
          have h1 : hasBadKeyDict kvs = true := by
            rw [hck] at ih1
            simpa [isError] using ih1.symm
          have hstep : check_keys ((k, JVal.obj kvs) :: rest) = .error e := by
            simp [check_keys, hk', hck]
          rw [hstep]
          simp [isError, hasBadKeyDict, h1]
        | ok u =>
          cases u
          have h1 : hasBadKeyDict kvs = false := by
            rw [hck] at ih1
            simpa [isError] using ih1.symm
          have hstep : check_keys ((k, JVal.obj kvs) :: rest)
              = check_keys rest := by
            simp [check_keys, hk', hck]
          rw [hstep, ih2]
          simp [hasBadKeyDict, hk', h1]
      | null =>
        have ih2 := check_keys_isError_eq rest
        have hstep : check_keys ((k, JVal.null) :: rest) = check_keys rest := by
          simp [check_keys, hk']
        rw [hstep, ih2]
        simp [hasBadKeyDict, hk']
      | bool b =>
        have ih2 := check_keys_isError_eq rest
        have hstep : check_keys ((k, JVal.bool b) :: rest)
            = check_keys rest := by
          simp [check_keys, hk']
        rw [hstep, ih2]
        simp [hasBadKeyDict, hk']
      | num n =>
        have ih2 := check_keys_isError_eq rest
        have hstep : check_keys ((k, JVal.num n) :: rest)
            = check_keys rest := by
          simp [check_keys, hk']
        rw [hstep, ih2]
        simp [hasBadKeyDict, hk']
      | str s =>
        have ih2 := check_keys_isError_eq rest
        have hstep : check_keys ((k, JVal.str s) :: rest)
            = check_keys rest := by
          simp [check_keys, hk']
        rw [hstep, ih2]
        simp [hasBadKeyDict, hk']
      | arr xs =>
        have ih2 := check_keys_isError_eq rest
        have hstep : check_keys ((k, JVal.arr xs) :: rest)
            = check_keys rest := by
          simp [check_keys, hk']
        rw [hstep, ih2]
        simp [hasBadKeyDict, hk']

/-- C7 (amended): for every metadata dict, `check_keys` raises exactly when
a key containing `.`, `-` or `\` occurs at some depth of dict-within-dict
nesting (`hasBadKeyDict`, which searches dict values only): every such dict
raises, at any depth, and a dict without such a reachable key never raises.
In particular values of other container types are never inspected: a dict
value that is a list is accepted outright, whatever the list contains. -/
theorem check_keys_dict_recursion_only :
    (∀ d : List (String × JVal), isError (check_keys d) = hasBadKeyDict d) ∧
    (∀ (k : String) (xs : List JVal), keyHasBadChar k = false →
      check_keys [(k, JVal.arr xs)] = .ok ()) := by
  refine ⟨check_keys_isError_eq, fun k xs hk => ?_⟩
  simp [check_keys, hk]

theorem check_keys_dict_recursion_only_witness :
    check_keys [("a", JVal.arr [JVal.obj [("b.c", JVal.num 1)]])] = .ok () :=
  check_keys_dict_recursion_only.2 "a" [JVal.obj [("b.c", JVal.num 1)]]
    (by decide)

/-- C7 counterexample: the metadata dict `{"a": [{"b.c": 1}]}` carries the
invalid character `.` in a key nested inside a list value, yet
`upload_files` accepts it: the whole validation prefix succeeds and the
upload would proceed, refuting "raises ... including when the bad key is
nested inside other container values". -/
theorem check_keys_list_nested_cex :
    upload_files_validate [⟨"a.txt", true⟩]
        (some [[("a", JVal.arr [JVal.obj [("b.c", JVal.num 1)]])]]) false
      = .ok ([⟨"a.txt", true⟩], [[("a", JVal.arr [JVal.obj [("b.c", JVal.num 1)]])]]) := by
  have hck : check_keys [("a", JVal.arr [JVal.obj [("b.c", JVal.num 1)]])] = .ok () := by
    simp [check_keys, (by decide : keyHasBadChar "a" = false)]
  have hpm : parse_metadata [("a", JVal.arr [JVal.obj [("b.c", JVal.num 1)]])] false
      = .ok [("a", JVal.arr [JVal.obj [("b.c", JVal.num 1)]])] := by
    rw [parse_metadata, hck]
    rfl
  exact upload_files_validate_eq_ok _ _ _ _ (by decide) rfl (by simp) rfl
    (parse_metadata_list_singleton _ _ _ hpm)

/-! ## C2: reserved metadata keys are not rejected (code bug) -/

/-- C2 (code bug): `upload_files` documents the keys `file_name`, `user_id`,
`file_path` and `file_id` as reserved and promises a `ValueError`, but
neither `parse_metadata` nor any other part of the validation prefix checks
for them: a metadata dict using all four reserved keys passes validation
unchanged and the upload proceeds. -/
theorem upload_files_reserved_keys_accepted :
    upload_files_validate [⟨"a.txt", true⟩]
        (some [[("file_name", JVal.str "x"), ("user_id", JVal.str "u"),
                ("file_path", JVal.str "p"), ("file_id", JVal.str "i")]]) false
      = .ok ([⟨"a.txt", true⟩],
             [[("file_name", JVal.str "x"), ("user_id", JVal.str "u"),
               ("file_path", JVal.str "p"), ("file_id", JVal.str "i")]]) := by
  have hck : check_keys [("file_name", JVal.str "x"), ("user_id", JVal.str "u"),
      ("file_path", JVal.str "p"), ("file_id", JVal.str "i")] = .ok () := by
    simp [check_keys,
      (by decide : keyHasBadChar "file_name" = false),
      (by decide : keyHasBadChar "user_id" = false),
      (by decide : keyHasBadChar "file_path" = false),
      (by decide : keyHasBadChar "file_id" = false)]
  have hpm : parse_metadata [("file_name", JVal.str "x"), ("user_id", JVal.str "u"),
      ("file_path", JVal.str "p"), ("file_id", JVal.str "i")] false
      = .ok [("file_name", JVal.str "x"), ("user_id", JVal.str "u"),
             ("file_path", JVal.str "p"), ("file_id", JVal.str "i")] := by
    rw [parse_metadata, hck]
    rfl
  exact upload_files_validate_eq_ok _ _ _ _ (by decide) rfl (by simp) rfl
    (parse_metadata_list_singleton _ _ _ hpm)

/-! ## C9: metadata/file count mismatch -/

/-- C9 (amended): when every supplied path passes the local file checks
(exists, supported extension) and the file count is within `MAX_UPLOAD`,
`upload_files` with non-empty metadata of a different length than the file
list raises the count-mismatch error during the synchronous validation
prefix, before any network call.  (If a path fails the earlier per-file
validation, that error is raised first instead — still before any network
call — so the unrestricted claim fails; see the counterexample.) -/
theorem upload_files_count_mismatch (F : List FsFile)
    (M : List (List (String × JVal))) (flat : Bool)
    (_hF : F ≠ []) (hM : M ≠ [])
    (hlen : M.length ≠ F.length)
    (hmax : F.length ≤ MAX_UPLOAD)
    (hvalid : parse_file_paths F = .ok F) :
    upload_files_validate F (some M) flat = .error .countMismatch :=
  upload_files_validate_mismatch F M flat (by omega) hvalid hM hlen

theorem upload_files_count_mismatch_witness :
    upload_files_validate [⟨"a.txt", true⟩] (some [[], []]) false
      = .error .countMismatch :=
  upload_files_count_mismatch [⟨"a.txt", true⟩] [[], []] false
    (by simp) (by simp) (by decide) (by decide) rfl

/-- C9 counterexample: with a non-existent file and a metadata list of the
wrong length, `upload_files` raises the file-not-found error of
`parse_file_path`, not the count-mismatch error: the per-file validation
(context.py line 300) runs before the length comparison (line 302). -/
theorem upload_files_count_mismatch_cex :
    upload_files_validate [⟨"a.txt", false⟩] (some [[], []]) false
      = .error (.fileNotFound "a.txt") ∧
    UploadError.fileNotFound "a.txt" ≠ UploadError.countMismatch :=
  ⟨rfl, by decide⟩

/-! ## C10: an empty metadata list is treated like no metadata -/

/-- C10: passing `metadata = []` together with a (valid) non-empty file list
raises no count-mismatch error: the empty list is falsy in Python, so it
takes exactly the same branches as `metadata = None`, and every file is
assigned a fresh empty metadata dict. -/
theorem upload_files_empty_metadata (F : List FsFile) (flat : Bool)
    (hmax : F.length ≤ MAX_UPLOAD)
    (hvalid : parse_file_paths F = .ok F) :
    upload_files_validate F (some []) flat = upload_files_validate F none flat ∧
    upload_files_validate F (some []) flat
      = .ok (F, List.replicate F.length []) := by
  have h1 := upload_files_validate_no_metadata F (some []) flat (by omega) hvalid
    (Or.inr rfl)
  have h2 := upload_files_validate_no_metadata F none flat (by omega) hvalid
    (Or.inl rfl)
  exact ⟨h1.trans h2.symm, h1⟩

theorem upload_files_empty_metadata_witness :
    upload_files_validate [⟨"a.txt", true⟩] (some []) false
      = .ok ([⟨"a.txt", true⟩],
             List.replicate ([(⟨"a.txt", true⟩ : FsFile)]).length []) :=
  (upload_files_empty_metadata [⟨"a.txt", true⟩] false (by decide) rfl).2

/-! ## C3: per-file transfer retry policy -/

lemma retryAttempts_le : ∀ (rs : List Nat) (fuel : Nat),
    retryAttempts fuel rs ≤ fuel + 1 := by
  intro rs
  induction rs with
  | nil => intro fuel; simp [retryAttempts]
  | cons s rest ih =>
    intro fuel
    cases fuel with
    | zero => simp [retryAttempts]
    | succ n =>
      have h := ih n
      simp only [retryAttempts]
      split
      · omega
      · omega

lemma retryPut_not_forcelist : ∀ (rs : List Nat) (fuel s : Nat),
    retryPut fuel rs = some s → s ∉ status_forcelist := by
  intro rs
  induction rs with
  | nil => intro fuel s h; simp [retryPut] at h
  | cons r rest ih =>
    intro fuel s h
    cases fuel with
    | zero =>
      simp only [retryPut] at h
      by_cases hr : r ∈ status_forcelist
      · rw [if_pos hr] at h; exact absurd h (by simp)
      · rw [if_neg hr] at h
        injection h with h2
        subst h2
        exact hr
    | succ n =>
      simp only [retryPut] at h
      by_cases hr : r ∈ status_forcelist
      · rw [if_pos hr] at h
        exact ih n s h
      · rw [if_neg hr] at h
        injection h with h2
        subst h2
        exact hr

/-- C3 (amended): a transfer makes at most 4 HTTP attempts (the initial
request plus the 3 retries of `Retry(total=3)`); only the forcelist statuses
502/503/504 are retried (a delivered terminal status is never one of them);
a transfer succeeds exactly when the terminal response is exactly 200, and
any other delivered terminal status — including other 2xx statuses — raises
a `ValueError` naming the specific file.  (The original claim's "at most 3
attempts" and "a 2xx terminal response is accepted" both fail; see the
counterexample.) -/
theorem upload_file_retry_spec (file : String) (responses : List Nat) :
    retryAttempts 3 responses ≤ 4 ∧
    (∀ s, retryPut 3 responses = some s → s ∉ status_forcelist) ∧
    (upload_file file responses = .ok ↔ retryPut 3 responses = some 200) ∧
    (∀ s, retryPut 3 responses = some s → s ≠ 200 →
      upload_file file responses = .failNamed file) := by
  refine ⟨retryAttempts_le responses 3,
          fun s h => retryPut_not_forcelist responses 3 s h, ?_, ?_⟩
  · constructor
    · intro h
      rw [upload_file] at h
      cases hr : retryPut 3 responses with
      | none =>
        rw [hr] at h
        simp at h
      | some s =>
        rw [hr] at h
        by_cases hs : s = 200
        · rw [hs]
        · simp [hs] at h
    · intro h
      rw [upload_file, h]
      simp
  · intro s h hne
    rw [upload_file, h]
    simp [hne]

theorem upload_file_retry_spec_witness :
    upload_file "report.pdf" [503, 404] = .failNamed "report.pdf" :=
  (upload_file_retry_spec "report.pdf" [503, 404]).2.2.2 404 rfl (by decide)

/-- C3 counterexample: a terminal 201 response — a 2xx success status — is
rejected with the error naming the file (`_upload_file` accepts only exactly
200), and a 503/503/503/200 answer sequence is accepted after 4 attempts,
refuting "at most 3 attempts". -/
theorem upload_file_2xx_rejected_cex :
    upload_file "report.pdf" [201] = .failNamed "report.pdf" ∧
    retryAttempts 3 [503, 503, 503, 200] = 4 ∧
    retryPut 3 [503, 503, 503, 200] = some 200 :=
  ⟨rfl, rfl, rfl⟩

/-! ## C4: `guess_mime_type` never falls back to octet-stream -/

/-- C4 (code bug): `mimetypes.guess_type` returns a 2-tuple, which is always
truthy in Python, so the `"application/octet-stream"` fallback branch of
`guess_mime_type` is dead code: for an unknown extension the function
returns `None` instead of the generic octet-stream type (known extensions
do get their table type). -/
theorem guess_mime_type_fallback_dead :
    guess_mime_type sample_types_map "file.xyz" = none ∧
    guess_mime_type sample_types_map "doc.pdf" = some "application/pdf" ∧
    ∀ (tm : List (String × String)) (p : String),
      guess_mime_type tm p = (guess_type tm p).1 :=
  ⟨rfl, rfl, fun _ _ => rfl⟩

/-! ## C6: `search` argument validation -/

/-- C6: `search` raises — and posts no request — exactly when the query
string is empty, or `semantic_weight` lies outside `[0, 1]`, or
`full_text_weight` lies outside `[0, 1]`, or both weights are zero,
regardless of all other parameters (context name, `top_k`, `rrf_k`,
`include_embedding`, metadata filters). -/
theorem search_validation_iff (cn q : String) (tk rk : Int) (sw fw : Rat)
    (ie : Bool) (mf : Option JVal) :
    isError (search cn q tk sw fw rk ie mf) = true ↔
      (q = "" ∨ sw < 0 ∨ 1 < sw ∨ fw < 0 ∨ 1 < fw ∨ (sw = 0 ∧ fw = 0)) := by
  rw [search]
  by_cases h1 : q = ""
  · rw [if_pos h1]
    exact iff_of_true rfl (Or.inl h1)
  · rw [if_neg h1]
    by_cases h2 : ¬ (0 ≤ sw ∧ sw ≤ 1)
    · rw [if_pos h2]
      refine iff_of_true rfl ?_
      rcases not_and_or.mp h2 with h | h
      · exact Or.inr (Or.inl (not_le.mp h))
      · exact Or.inr (Or.inr (Or.inl (not_le.mp h)))
    · rw [if_neg h2]
      have h2' := not_not.mp h2
      by_cases h3 : ¬ (0 ≤ fw ∧ fw ≤ 1)
      · rw [if_pos h3]
        refine iff_of_true rfl ?_
        rcases not_and_or.mp h3 with h | h
        · exact Or.inr (Or.inr (Or.inr (Or.inl (not_le.mp h))))
        · exact Or.inr (Or.inr (Or.inr (Or.inr (Or.inl (not_le.mp h)))))
      · rw [if_neg h3]
        have h3' := not_not.mp h3
        by_cases h4 : sw = 0 ∧ fw = 0
        · rw [if_pos h4]
          exact iff_of_true rfl
            (Or.inr (Or.inr (Or.inr (Or.inr (Or.inr h4)))))
        · rw [if_neg h4]
          refine iff_of_false (by simp [isError]) ?_
          rintro (h | h | h | h | h | hb)
          · exact h1 h
          · exact absurd h (not_lt.mpr h2'.1)
          · exact absurd h (not_lt.mpr h2'.2)
          · exact absurd h (not_lt.mpr h3'.1)
          · exact absurd h (not_lt.mpr h3'.2)
          · exact h4 hb

/-! ## C8: transport error handling -/

/-- C8 (amended): on a success status (`response.ok`, i.e. status < 400) the
parsed body is returned.  On a non-success status the transport reads only
the `detail` field of the parsed JSON body: when it is present and truthy it
raises `ApiError` carrying the status code and that message; otherwise —
including when `detail` is absent, or present but empty — it raises the
generic HTTP error carrying the status.  A body that fails to parse as JSON
falls back to the empty object and therefore takes the generic status-code
error path.  (Fields named `error` or `message` are never consulted; see the
counterexample.) -/
theorem handle_response_spec (status : Nat)
    (body : Option (List (String × JVal))) :
    (status < 400 → handle_response status body = .body (body.getD [])) ∧
    (¬ status < 400 →
      jvalTruthy (dict_get (body.getD []) "detail" (JVal.arr [])) = true →
      handle_response status body
        = .apiError status (dict_get (body.getD []) "detail" (JVal.arr []))) ∧
    (¬ status < 400 →
      jvalTruthy (dict_get (body.getD []) "detail" (JVal.arr [])) = false →
      handle_response status body = .httpError status) ∧
    (¬ status < 400 → body = none →
      handle_response status body = .httpError status) := by
  refine ⟨fun h => ?_, fun h ht => ?_, fun h ht => ?_, fun h hb => ?_⟩
  · simp [handle_response, h]
  · simp [handle_response, h, ht]
  · simp [handle_response, h, ht]
  · subst hb
    simp [handle_response, h, dict_get, jvalTruthy]

theorem handle_response_spec_witness :
    handle_response 404 (some [("detail", JVal.str "nope")])
      = .apiError 404 (JVal.str "nope") :=
  (handle_response_spec 404 (some [("detail", JVal.str "nope")])).2.1
    (by decide) rfl

/-- C8 counterexample: a 500 response whose JSON body is
`{"error": "boom"}` is turned into the generic HTTP error, not into a
remote-API error carrying the message: `_handle_response` reads only the
`detail` field, refuting "parses the JSON body for an `error`/`message` or
`detail` field" as stated. -/
theorem handle_response_error_field_cex :
    handle_response 500 (some [("error", JVal.str "boom")]) = .httpError 500 ∧
    ∀ (st : Nat) (d : JVal),
      HandleResult.httpError 500 ≠ HandleResult.apiError st d :=
  ⟨rfl, fun _ _ h => nomatch h⟩

end OneContext
